import Mathlib

/-!
Verification of the Cloudflare Tunnel Monitor integration
(`custom_components/cloudflare_tunnel_monitor`).

Shallow embedding of `coordinator.py` and `sensor.py`.  Raw JSON
connection records are modelled as records of optional fields (one field
per dictionary key the source ever probes); Python truthiness of a
string value (`None` and `""` are falsy) is modelled by `pyOr`-style
helpers; Python `set` is modelled by a duplicate-free list, and
`sorted(...)` by an insertion sort under the code-point lexicographic
order `strLe` (Python's string order).
-/

namespace CFTM

/-- Python `a or b` on two optional strings: the first operand when it is
truthy (present and non-empty), the second operand otherwise. -/
def pyOr (a b : Option String) : Option String :=
  match a with
  | some s => if s = "" then b else some s
  | none => b

/-- Python `a or d` where `d` is a plain string default. -/
def pyOrD (a : Option String) (d : String) : String :=
  match a with
  | some s => if s = "" then d else s
  | none => d

/-- Python truthiness of an optional string: truthy iff present and non-empty. -/
def truthyS (a : Option String) : Bool :=
  match a with
  | some s => decide (s ≠ "")
  | none => false

/-- Lexicographic comparison of character lists by code point — the order
Python uses to compare strings.  (Defined by structural recursion so that
concrete comparisons evaluate inside the kernel.) -/
def lexLe : List Char → List Char → Bool
  | [], _ => true
  | _ :: _, [] => false
  | a :: as, b :: bs => if a < b then true else if b < a then false else lexLe as bs

/-- Python `a <= b` on strings: lexicographic by code point. -/
def strLe (a b : String) : Bool :=
  lexLe a.data b.data

/-- Python `a > b` on strings: the strict complement of `strLe`. -/
def strGt (a b : String) : Bool :=
  !(strLe a b)

/-- Python `set.add`: sets are modelled as duplicate-free lists (the
iteration order of a Python set is irrelevant here because every set is
sorted before being exposed). -/
def insertNew (s : List String) (v : String) : List String :=
  if v ∈ s then s else s ++ [v]

/-- Insert a string into a list sorted by `strLe`, keeping it sorted. -/
def insertSorted (v : String) : List String → List String
  | [] => [v]
  | x :: xs => if strLe v x then v :: x :: xs else x :: insertSorted v xs

/-- Python `sorted(...)` on a set of strings: insertion sort under `strLe`. -/
def pySorted : List String → List String
  | [] => []
  | x :: xs => insertSorted x (pySorted xs)

/-- One raw connection record, as returned by the per-tunnel connections
endpoint.  One optional field per dictionary key that `coordinator.py`
(`_build_connectors`) or `sensor.py` (`extra_state_attributes`) ever reads. -/
structure Conn where
  client_id : Option String := none
  clientId : Option String := none
  client_version : Option String := none
  clientVersion : Option String := none
  version : Option String := none
  opened_at : Option String := none
  openedAt : Option String := none
  started_at : Option String := none
  run_at : Option String := none
  colo_name : Option String := none
  edge : Option String := none
  colo : Option String := none
  origin : Option String := none
  pop : Option String := none
  client_address : Option String := none
  origin_ip : Option String := none
  ip : Option String := none
  is_pending_reconnect : Option Bool := none
  pending_reconnect : Option Bool := none
deriving DecidableEq, Repr

/-- `conn.get("client_id") or conn.get("clientId") or "unknown"`
(coordinator line 177; the sensor, lines 92-94, computes the same value). -/
def clientIdOf (c : Conn) : String :=
  pyOrD (pyOr c.client_id c.clientId) "unknown"

/-- `conn.get("client_version") or conn.get("clientVersion") or conn.get("version")`
(coordinator lines 178-182). -/
def versionOf (c : Conn) : Option String :=
  pyOr (pyOr c.client_version c.clientVersion) c.version

/-- `conn.get("opened_at") or conn.get("openedAt") or conn.get("started_at")`
(coordinator lines 184-188). -/
def openedAtOf (c : Conn) : Option String :=
  pyOr (pyOr c.opened_at c.openedAt) c.started_at

/-- `conn.get("colo_name") or conn.get("edge") or conn.get("colo") or conn.get("origin")`
(coordinator lines 190-195). -/
def edgeOf (c : Conn) : Option String :=
  pyOr (pyOr (pyOr c.colo_name c.edge) c.colo) c.origin

/-- `conn.get("client_address") or conn.get("origin_ip") or conn.get("ip")`
(coordinator lines 196-200). -/
def originIpOf (c : Conn) : Option String :=
  pyOr (pyOr c.client_address c.origin_ip) c.ip

/-- `bool(conn.get("is_pending_reconnect") or conn.get("pending_reconnect"))`
(coordinator lines 202-204). -/
def pendingOf (c : Conn) : Bool :=
  c.is_pending_reconnect.getD false || c.pending_reconnect.getD false

/-- The in-progress grouped record created by `grouped.setdefault` in
`_build_connectors` (coordinator lines 206-221) and by the analogous
`setdefault` in `extra_state_attributes` (sensor lines 96-111): the
`edges` / `origin_ips` fields are still Python sets. -/
structure ConnAcc where
  client_id : String
  version : Option String
  sessions : Nat
  edges : List String
  origin_ips : List String
  pending_reconnect : Bool
  opened_at_latest : Option String
  latest_version : Option String
  is_latest : Option Bool
  update_available : Option Bool
  version_diff : Option String
deriving DecidableEq

/-- A finalized connector record, with `edges` / `origin_ips` rendered as
sorted lists (coordinator lines 240-260, sensor lines 144-148). -/
structure Connector where
  client_id : String
  version : Option String
  sessions : Nat
  edges : List String
  origin_ips : List String
  pending_reconnect : Bool
  opened_at_latest : Option String
  latest_version : Option String
  is_latest : Option Bool
  update_available : Option Bool
  version_diff : Option String
deriving DecidableEq, Repr

/-- The default record passed to `setdefault` (coordinator lines 208-220 and
sensor lines 98-110 build the same dictionary, differing only in the
expression supplied for `version`). -/
def defaultAcc (k : String) (version : Option String) (latest : Option String) : ConnAcc :=
  { client_id := k
    version := version
    sessions := 0
    edges := []
    origin_ips := []
    pending_reconnect := false
    opened_at_latest := none
    latest_version := latest
    is_latest := none
    update_available := none
    version_diff := none }

/-- `grouped_conn["edges"].add(edge)` guarded by `if edge:` — add an optional
value to a set when it is truthy. -/
def addTruthy (s : List String) (o : Option String) : List String :=
  match o with
  | some v => if v = "" then s else insertNew s v
  | none => s

/-- The `opened_at_latest` update (coordinator lines 231-234): when the new
timestamp is truthy and either no previous value exists or the new one is
strictly greater under string comparison, replace it. -/
def updOpened (cur : Option String) (o : Option String) : Option String :=
  match o with
  | some s =>
    if s = "" then cur
    else
      match cur with
      | none => some s
      | some p => if strGt s p then some s else cur
  | none => cur

/-- The mutation of one grouped record by one connection in
`_build_connectors` (coordinator lines 223-237). -/
def updateAcc (g : ConnAcc) (conn : Conn) : ConnAcc :=
  { g with
    sessions := g.sessions + 1
    edges := addTruthy g.edges (edgeOf conn)
    origin_ips := addTruthy g.origin_ips (originIpOf conn)
    opened_at_latest := updOpened g.opened_at_latest (openedAtOf conn)
    pending_reconnect := g.pending_reconnect || pendingOf conn }

/-- Lookup in an insertion-ordered association list (model of Python dict
access on `grouped`). -/
def assocFind {α : Type} : List (String × α) → String → Option α
  | [], _ => none
  | p :: rest, k => if p.1 = k then some p.2 else assocFind rest k

/-- Update the first entry with the given key (model of mutating the record
returned by `grouped.setdefault`; keys are unique by construction). -/
def assocModify {α : Type} (k : String) (f : α → α) : List (String × α) → List (String × α)
  | [] => []
  | p :: rest => if p.1 = k then (p.1, f p.2) :: rest else p :: assocModify k f rest

/-- One iteration of the `for conn in connections or []` loop of
`_build_connectors` (coordinator lines 176-237): `setdefault` followed by
the in-place mutations, plus the `total_sessions` increment. -/
def stepConn (latest : Option String) (st : List (String × ConnAcc) × Nat) (conn : Conn) :
    List (String × ConnAcc) × Nat :=
  let k := clientIdOf conn
  match assocFind st.1 k with
  | some _ => (assocModify k (fun g => updateAcc g conn) st.1, st.2 + 1)
  | none => (st.1 ++ [(k, updateAcc (defaultAcc k (versionOf conn) latest) conn)], st.2 + 1)

/-- The part of finalization common to every branch of the second pass
(coordinator lines 240-243): sets become sorted lists, the version
comparison fields default to null. -/
def finalizeBase (g : ConnAcc) : Connector :=
  { client_id := g.client_id
    version := g.version
    sessions := g.sessions
    edges := pySorted g.edges
    origin_ips := pySorted g.origin_ips
    pending_reconnect := g.pending_reconnect
    opened_at_latest := g.opened_at_latest
    latest_version := g.latest_version
    is_latest := none
    update_available := none
    version_diff := none }

/-- The second pass of `_build_connectors` over one grouped record
(coordinator lines 240-258): sort the sets and compute the version
comparison fields when both `version` and `latest_version` are truthy. -/
def finalize (g : ConnAcc) : Connector :=
  match g.version, g.latest_version with
  | some v, some l =>
    if v = "" ∨ l = "" then finalizeBase g
    else
      { finalizeBase g with
        is_latest := some (decide (v = l))
        update_available := some (!decide (v = l))
        version_diff := if v = l then none else some (v ++ " -> " ++ l) }
  | _, _ => finalizeBase g

/-- `_build_connectors` (coordinator lines 167-262): group raw connections
into logical connectors; returns `(connectors, connector_count, session_count)`. -/
def build_connectors (connections : List Conn) (latest : Option String) :
    List Connector × Nat × Nat :=
  let st := connections.foldl (stepConn latest) ([], 0)
  let connectors := st.1.map (fun p => finalize p.2)
  (connectors, connectors.length, st.2)

/-- The error taxonomy of `_fetch_json` / `_async_update_data`: each
constructor models one of the `UpdateFailed(...)` raises in
`coordinator.py` (lines 69, 72-74, 77, 79, 123). -/
inductive UpdateFailedE where
  | unauthorized
  | httpError (status : Nat) (reason : String) (excerpt : String)
  | timeout
  | clientError
  | unexpectedTunnelsPayload
deriving DecidableEq, Repr

/-- The outcome of one `session.get` as observed by `_fetch_json`: either an
HTTP response (status, reason, body text, parsed JSON body) or a raised
`asyncio.TimeoutError` / `aiohttp.ClientError`. -/
inductive FetchOutcome (α : Type) where
  | httpResp (status : Nat) (reason : String) (text : String) (body : α)
  | timedOut
  | clientErr
deriving DecidableEq, Repr

/-- `_fetch_json` (coordinator lines 61-79): 401 becomes `Unauthorized`, any
other non-200 becomes an HTTP error carrying the first 200 characters of
the body text, timeouts and client errors become their own failures, and a
200 yields the parsed body. -/
def fetch_json {α : Type} (o : FetchOutcome α) : Except UpdateFailedE α :=
  match o with
  | .httpResp status reason text body =>
    if status = 401 then .error .unauthorized
    else if status ≠ 200 then .error (.httpError status reason (text.take 200))
    else .ok body
  | .timedOut => .error .timeout
  | .clientErr => .error .clientError

/-- The parsed body of the GitHub latest-release endpoint, restricted to the
two keys `_fetch_latest_version` reads. -/
structure GhRelease where
  tag_name : Option String := none
  name : Option String := none
deriving DecidableEq, Repr

/-- The outcome of the GitHub request inside `_fetch_latest_version`: an HTTP
response whose body either parsed (`some release`) or raised while parsing
(`none`), or any raised exception (timeout, client error, ...), all of which
the broad `except Exception` swallows. -/
inductive GhOutcome where
  | httpResp (status : Nat) (body : Option GhRelease)
  | exn
deriving DecidableEq, Repr

/-- `_fetch_latest_version` (coordinator lines 81-105): best-effort fetch of
the latest cloudflared version.  Any failure yields `none`; a 200 response
yields `(tag_name or name).lstrip("v")` when that value is a string. -/
def fetch_latest_version (o : GhOutcome) : Option String :=
  match o with
  | .httpResp status body =>
    if status ≠ 200 then none
    else
      match body with
      | none => none
      | some data =>
        match pyOr data.tag_name data.name with
        | some v => some (String.mk (v.data.dropWhile (fun ch => ch = 'v')))
        | none => none
  | .exn => none

/-- One raw tunnel entry of the tunnel-listing response, restricted to the
keys `_async_update_data` reads (coordinator lines 129, 155-157). -/
structure RawTunnel where
  id : Option String := none
  name : Option String := none
  status : Option String := none
  created_at : Option String := none
deriving DecidableEq, Repr

/-- The `result` field of the tunnel-listing response body:
`tunnels_resp.get("result", [])` is either a list (a missing key defaults
to the empty list) or some non-list value, which line 123 rejects. -/
inductive TunnelsPayload where
  | ok (result : List RawTunnel)
  | notList
deriving DecidableEq, Repr

/-- The body of one per-tunnel connections response:
`connections_resp.get("result", [])` (coordinator lines 139-141). -/
structure ConnResp where
  result : List Conn := []
deriving DecidableEq, Repr

/-- One refresh cycle's network environment: the outcome of the tunnel-list
request, of the GitHub latest-release request, and of the per-tunnel
connections request for each tunnel id. -/
structure Env where
  tunnelsFetch : FetchOutcome TunnelsPayload
  githubFetch : GhOutcome
  connFetch : String → FetchOutcome ConnResp

/-- The value universe for the per-tunnel dictionary assembled by
`_async_update_data` (coordinator lines 152-163) and read back by the
sensor: plain strings, optional strings, counters, finalized connector
lists, and raw connection lists. -/
inductive TVal where
  | s (v : String)
  | os (v : Option String)
  | n (v : Nat)
  | cs (v : List Connector)
  | conns (v : List Conn)
deriving DecidableEq, Repr

/-- The per-tunnel dictionary published in the coordinator's snapshot. -/
abbrev TunnelDict := List (String × TVal)

/-- Python `tunnel.get(key)`: `none` when the key is absent. -/
def dget (d : TunnelDict) (k : String) : Option TVal :=
  assocFind d k

/-- The `connections_raw` value for one tunnel (coordinator lines 137-146):
the `result` list of a successful connections fetch, or the empty list when
that fetch raised `UpdateFailed`. -/
def connRawOf (co : FetchOutcome ConnResp) : List Conn :=
  match fetch_json co with
  | Except.ok resp => resp.result
  | Except.error _ => []

/-- The dictionary appended to `tunnels` for one tunnel (coordinator lines
148-163). -/
def buildTunnelEntry (latest : Option String) (co : FetchOutcome ConnResp)
    (tid : String) (t : RawTunnel) : TunnelDict :=
  let built := build_connectors (connRawOf co) latest
  [("id", TVal.s tid),
   ("name", TVal.s (pyOrD t.name tid)),
   ("status", TVal.os t.status),
   ("created_at", TVal.os t.created_at),
   ("connector_count", TVal.n built.2.1),
   ("session_count", TVal.n built.2.2),
   ("connectors", TVal.cs built.1),
   ("latest_cloudflared_version", TVal.os latest)]

/-- `tunnel_id = tunnel.get("id"); if not tunnel_id: continue` (coordinator
lines 129-131): the tunnel's id when truthy. -/
def tunnelIdOf (t : RawTunnel) : Option String :=
  match t.id with
  | some s => if s = "" then none else some s
  | none => none

/-- One iteration of the tunnel loop (coordinator lines 128-163): skip
tunnels without a truthy id, otherwise fetch connections and build the
entry. -/
def tunnelEntry (latest : Option String) (connFetch : String → FetchOutcome ConnResp)
    (t : RawTunnel) : Option TunnelDict :=
  match tunnelIdOf t with
  | none => none
  | some tid => some (buildTunnelEntry latest (connFetch tid) tid t)

/-- `_async_update_data` (coordinator lines 107-165), run against the stored
latest version `prevLatest` (the `self._latest_version` attribute) and the
cycle's network environment.  Returns the outcome of the cycle together
with the new value of `self._latest_version` — the attribute is only
assigned (line 125) after the tunnel listing has been validated, so a
failing cycle leaves it unchanged. -/
def async_update_data (prevLatest : Option String) (env : Env) :
    Except UpdateFailedE (List TunnelDict) × Option String :=
  let latestVersion := fetch_latest_version env.githubFetch
  match fetch_json env.tunnelsFetch with
  | Except.error e => (Except.error e, prevLatest)
  | Except.ok payload =>
    match payload with
    | TunnelsPayload.notList => (Except.error UpdateFailedE.unexpectedTunnelsPayload, prevLatest)
    | TunnelsPayload.ok result =>
      (Except.ok (result.filterMap (tunnelEntry latestVersion env.connFetch)), latestVersion)

/-- Modelled from the spec: the host framework that schedules
`_async_update_data` (Home Assistant's `DataUpdateCoordinator`, not part of
this repository) publishes the returned list as the new snapshot on
success and retains the previously published snapshot when the update
raises `UpdateFailed` (spec section 4.5 step 2 and section 7). -/
def publish (prevSnap : Option (List TunnelDict))
    (r : Except UpdateFailedE (List TunnelDict)) : Option (List TunnelDict) :=
  match r with
  | Except.ok s => some s
  | Except.error _ => prevSnap

/-- `CloudflareTunnelSensor._attr_options` (sensor line 40): the declared
enum options of the sensor, together with its declared
`SensorDeviceClass.ENUM` device class (line 39), under which the host
framework only accepts a native value that is `None` or one of these. -/
def attrOptions : List String :=
  ["inactive", "degraded", "healthy", "down"]

/-- `CloudflareTunnelSensor._tunnel` (sensor lines 55-61): the first entry of
the coordinator's data whose `"id"` value equals the sensor's tunnel id,
or the empty dictionary. -/
def findTunnel (data : List TunnelDict) (tid : String) : TunnelDict :=
  match data.find? (fun t => decide (dget t "id" = some (TVal.s tid))) with
  | some t => t
  | none => []

/-- `CloudflareTunnelSensor.native_value` (sensor lines 66-68):
`self._tunnel.get("status")`.  The stored status is an optional string
(coordinator line 156 stores `tunnel.get("status")`). -/
def native_value (t : TunnelDict) : Option String :=
  match dget t "status" with
  | some (TVal.os v) => v
  | some (TVal.s v) => some v
  | _ => none

/-- Python truthiness of a value read from a tunnel dictionary (`none` when
the key is absent). -/
def pyTruthyT (a : Option TVal) : Bool :=
  match a with
  | none => false
  | some (TVal.s v) => decide (v ≠ "")
  | some (TVal.os v) => truthyS v
  | some (TVal.n v) => decide (v ≠ 0)
  | some (TVal.cs v) => decide (v ≠ [])
  | some (TVal.conns v) => decide (v ≠ [])

/-- Python `a or b` on two values read from a tunnel dictionary. -/
def pyOrT (a b : Option TVal) : Option TVal :=
  if pyTruthyT a then a else b

/-- `sessions = tunnel.get("conns") or tunnel.get("connections") or []`
(sensor line 86): the raw connection list the sensor groups over; the empty
list when neither key holds a truthy raw connection list. -/
def sensorSessions (t : TunnelDict) : List Conn :=
  match pyOrT (dget t "conns") (dget t "connections") with
  | some (TVal.conns l) => l
  | _ => []

/-- `latest_version = tunnel.get("latest_cloudflared_version")` (sensor
line 87). -/
def sensorLatest (t : TunnelDict) : Option String :=
  match dget t "latest_cloudflared_version" with
  | some (TVal.os v) => v
  | some (TVal.s v) => some v
  | _ => none

/-- `s.get("client_version") or s.get("clientVersion")` (sensor line 100). -/
def sensorVersionOf (s : Conn) : Option String :=
  pyOr s.client_version s.clientVersion

/-- `s.get("colo_name") or s.get("edge") or s.get("colo") or s.get("pop")`
(sensor line 116). -/
def sensorEdgeOf (s : Conn) : Option String :=
  pyOr (pyOr (pyOr s.colo_name s.edge) s.colo) s.pop

/-- `s.get("origin_ip") or s.get("client_address")` (sensor line 121). -/
def sensorIpOf (s : Conn) : Option String :=
  pyOr s.origin_ip s.client_address

/-- `s.get("opened_at") or s.get("run_at")` (sensor line 129). -/
def sensorOpenedOf (s : Conn) : Option String :=
  pyOr s.opened_at s.run_at

/-- The mutation of one grouped record by one session in the sensor's
`extra_state_attributes` loop (sensor lines 113-141), including the
per-session version comparison: `version_diff` is only assigned when the
versions differ (with an arrow rendered as `" → "`), and is left untouched
when they are equal. -/
def sensorUpdateAcc (latest : Option String) (g : ConnAcc) (s : Conn) : ConnAcc :=
  let g1 :=
    { g with
      sessions := g.sessions + 1
      edges := addTruthy g.edges (sensorEdgeOf s)
      origin_ips := addTruthy g.origin_ips (sensorIpOf s)
      pending_reconnect := g.pending_reconnect || s.is_pending_reconnect.getD false
      opened_at_latest := updOpened g.opened_at_latest (sensorOpenedOf s) }
  match g1.version, latest with
  | some v, some l =>
    if v = "" ∨ l = "" then g1
    else
      { g1 with
        is_latest := some (decide (v = l))
        update_available := some (decide (v ≠ l))
        version_diff := if v = l then g1.version_diff else some (v ++ " → " ++ l) }
  | _, _ => g1

/-- One iteration of the `for s in sessions` loop of
`extra_state_attributes` (sensor lines 91-141).  The grouping key
computation (lines 92-94) coincides with the coordinator's `clientIdOf`. -/
def sensorStep (latest : Option String) (m : List (String × ConnAcc)) (s : Conn) :
    List (String × ConnAcc) :=
  let k := clientIdOf s
  match assocFind m k with
  | some _ => assocModify k (fun g => sensorUpdateAcc latest g s) m
  | none => m ++ [(k, sensorUpdateAcc latest (defaultAcc k (sensorVersionOf s) latest) s)]

/-- The sensor's finalization of one grouped record (sensor lines 144-148):
only the sets are rendered as sorted lists; the version comparison fields
keep whatever the loop computed. -/
def sensorFinalize (g : ConnAcc) : Connector :=
  { client_id := g.client_id
    version := g.version
    sessions := g.sessions
    edges := pySorted g.edges
    origin_ips := pySorted g.origin_ips
    pending_reconnect := g.pending_reconnect
    opened_at_latest := g.opened_at_latest
    latest_version := g.latest_version
    is_latest := g.is_latest
    update_available := g.update_available
    version_diff := g.version_diff }

/-- The attribute dictionary returned by `extra_state_attributes` (sensor
lines 150-155). -/
structure ESA where
  connector_count : Nat
  connectors : List Connector
  session_count : Nat
  latest_cloudflared_version : Option String
deriving DecidableEq, Repr

/-- `CloudflareTunnelSensor.extra_state_attributes` (sensor lines 83-155):
re-group the raw sessions read from the `"conns"` / `"connections"` keys of
the tunnel dictionary. -/
def extra_state_attributes (t : TunnelDict) : ESA :=
  let sessions := sensorSessions t
  let latest := sensorLatest t
  let m := sessions.foldl (sensorStep latest) []
  let connector_list := m.map (fun p => sensorFinalize p.2)
  { connector_count := connector_list.length
    connectors := connector_list
    session_count := sessions.length
    latest_cloudflared_version := latest }

/-- The sum of the `sessions` fields over an in-progress grouping (the
measure claim C1 compares with `total_sessions`). -/
def sessionsSum (m : List (String × ConnAcc)) : Nat :=
  (m.map (fun p => p.2.sessions)).sum

/-- Following the claim's words (spec section 3, `version`): the first
non-empty reported client version observed in input order among the
connections grouped under key `k`.  Stated for comparison with the code's
behaviour, which fixes `version` at group creation via `setdefault`. -/
def firstNonEmptyVersion (conns : List Conn) (k : String) : Option String :=
  ((conns.filter (fun y => clientIdOf y == k)).filterMap (fun y =>
    match versionOf y with
    | some v => if v = "" then none else some v
    | none => none)).head?

/-- Following the claim's words (C9): strip a single leading
version-prefix character, leaving the rest of the tag unchanged.  Stated
for comparison with the code's `version.lstrip("v")`, which strips every
leading `v`. -/
def stripOneLeadingV (s : String) : String :=
  match s.data with
  | c :: rest => if c = 'v' then String.mk rest else s
  | [] => s

/-- Input for the C6 counterexample: two connections of the same group, the
first without any version field, the second with one. -/
def conns6 : List Conn :=
  [{ client_id := some "A" },
   { client_id := some "A", client_version := some "2024.1.0" }]

/-- Witness input for C2 and C8. -/
def conns2 : List Conn :=
  [{ client_id := some "A", client_version := some "2024.1.0", colo := some "FRA" },
   { client_id := some "A", colo := some "AMS", origin_ip := some "10.0.0.2" }]

/-- Tunnel used by the C3 counterexample. -/
def t3 : RawTunnel := { id := some "tun1" }

/-- The connector of the C3 counterexample's single tunnel: built with a
failed latest-version fetch, so `latest_version` is null. -/
def wconn3 : Connector :=
  { client_id := "A"
    version := some "2024.1.0"
    sessions := 1
    edges := []
    origin_ips := []
    pending_reconnect := false
    opened_at_latest := none
    latest_version := none
    is_latest := none
    update_available := none
    version_diff := none }

/-- Connection used by the C3 counterexample. -/
def conn3 : Conn := { client_id := some "A", client_version := some "2024.1.0" }

/-- Environment of the C3 counterexample: the tunnel listing succeeds with
one tunnel with one connection, while the GitHub latest-release fetch
fails. -/
def env3 : Env :=
  { tunnelsFetch := FetchOutcome.httpResp 200 "OK" "" (TunnelsPayload.ok [t3])
    githubFetch := GhOutcome.exn
    connFetch := fun _ => FetchOutcome.httpResp 200 "OK" "" { result := [conn3] } }

/-- Environment of the C4 witness: the tunnel-list fetch returns HTTP 401. -/
def env4 : Env :=
  { tunnelsFetch := FetchOutcome.httpResp 401 "Unauthorized" "" (TunnelsPayload.ok [])
    githubFetch := GhOutcome.httpResp 200 (some { tag_name := some "v2025.1.0" })
    connFetch := fun _ => FetchOutcome.clientErr }

/-- Tunnels used by the C5 witness. -/
def tsW : List RawTunnel :=
  [{ id := some "tun-a", name := some "alpha", status := some "healthy" },
   { id := some "tun-b", name := some "beta", status := some "degraded" }]

/-- Environment of the C5 witness: the listing succeeds with two tunnels;
the connections fetch succeeds for `tun-a` and fails with HTTP 500 for
`tun-b`. -/
def env5 : Env :=
  { tunnelsFetch := FetchOutcome.httpResp 200 "OK" "" (TunnelsPayload.ok tsW)
    githubFetch := GhOutcome.httpResp 200 (some { tag_name := some "v2025.1.0" })
    connFetch := fun tid =>
      if tid = "tun-a" then
        FetchOutcome.httpResp 200 "OK" "" { result := [conn3] }
      else
        FetchOutcome.httpResp 500 "Internal Server Error" "boom" { result := [conn3] } }

/-- The connector produced by `_build_connectors` on `conns2` with latest
version `"2024.2.0"`. -/
def wconn2 : Connector :=
  { client_id := "A"
    version := some "2024.1.0"
    sessions := 2
    edges := ["AMS", "FRA"]
    origin_ips := ["10.0.0.2"]
    pending_reconnect := false
    opened_at_latest := none
    latest_version := some "2024.2.0"
    is_latest := some false
    update_available := some true
    version_diff := some "2024.1.0 -> 2024.2.0" }

/-- The connector produced by `_build_connectors` on `conns6` with no known
latest version. -/
def wconn6 : Connector :=
  { client_id := "A"
    version := none
    sessions := 2
    edges := []
    origin_ips := []
    pending_reconnect := false
    opened_at_latest := none
    latest_version := none
    is_latest := none
    update_available := none
    version_diff := none }

/-! ### Helper lemmas about the grouping fold -/

theorem updateAcc_version (g : ConnAcc) (c : Conn) : (updateAcc g c).version = g.version := rfl

theorem updateAcc_client_id (g : ConnAcc) (c : Conn) :
    (updateAcc g c).client_id = g.client_id := rfl

theorem updateAcc_latest_version (g : ConnAcc) (c : Conn) :
    (updateAcc g c).latest_version = g.latest_version := rfl

theorem updateAcc_sessions (g : ConnAcc) (c : Conn) :
    (updateAcc g c).sessions = g.sessions + 1 := rfl

theorem finalize_client_id (g : ConnAcc) : (finalize g).client_id = g.client_id := by
  cases hv : g.version <;> cases hl : g.latest_version <;>
    simp only [finalize, hv, hl, finalizeBase] <;> (try split) <;> rfl

theorem finalize_version (g : ConnAcc) : (finalize g).version = g.version := by
  cases hv : g.version <;> cases hl : g.latest_version <;>
    simp only [finalize, hv, hl, finalizeBase] <;> (try split) <;> simp [hv]

theorem finalize_sessions (g : ConnAcc) : (finalize g).sessions = g.sessions := by
  cases hv : g.version <;> cases hl : g.latest_version <;>
    simp only [finalize, hv, hl, finalizeBase] <;> (try split) <;> rfl

theorem finalize_latest_version (g : ConnAcc) :
    (finalize g).latest_version = g.latest_version := by
  cases hv : g.version <;> cases hl : g.latest_version <;>
    simp only [finalize, hv, hl, finalizeBase] <;> (try split) <;> simp [hl]

theorem finalize_edges (g : ConnAcc) : (finalize g).edges = pySorted g.edges := by
  cases hv : g.version <;> cases hl : g.latest_version <;>
    simp only [finalize, hv, hl, finalizeBase] <;> (try split) <;> rfl

theorem finalize_origin_ips (g : ConnAcc) :
    (finalize g).origin_ips = pySorted g.origin_ips := by
  cases hv : g.version <;> cases hl : g.latest_version <;>
    simp only [finalize, hv, hl, finalizeBase] <;> (try split) <;> rfl

theorem assocFind_append_none {α : Type} {m m2 : List (String × α)} {k : String}
    (h : assocFind m k = none) : assocFind (m ++ m2) k = assocFind m2 k := by
  induction m with
  | nil => rfl
  | cons p rest ih =>
    simp only [assocFind] at h ⊢
    by_cases hp : p.1 = k
    · rw [if_pos hp] at h; cases h
    · rw [if_neg hp] at h ⊢
      exact ih h

theorem assocFind_append_some {α : Type} {m m2 : List (String × α)} {k : String} {v : α}
    (h : assocFind m k = some v) : assocFind (m ++ m2) k = some v := by
  induction m with
  | nil => cases h
  | cons p rest ih =>
    simp only [assocFind] at h ⊢
    by_cases hp : p.1 = k
    · rw [if_pos hp] at h ⊢; exact h
    · rw [if_neg hp] at h ⊢
      exact ih h

theorem assocFind_append_single_none {α : Type} {m : List (String × α)} {k2 : String} {v : α}
    {k : String} (h : assocFind (m ++ [(k2, v)]) k = none) :
    assocFind m k = none ∧ ¬ k = k2 := by
  cases hm : assocFind m k with
  | some w => rw [assocFind_append_some hm] at h; cases h
  | none =>
    rw [assocFind_append_none hm] at h
    refine ⟨rfl, fun hk => ?_⟩
    simp only [assocFind] at h
    rw [if_pos hk.symm] at h
    cases h

theorem assocFind_assocModify {α : Type} (k j : String) (f : α → α) (m : List (String × α)) :
    assocFind (assocModify k f m) j =
      if j = k then (assocFind m j).map f else assocFind m j := by
  induction m with
  | nil => simp [assocModify, assocFind]
  | cons p rest ih =>
    by_cases hpk : p.1 = k
    · by_cases hjk : j = k
      · simp [assocModify, assocFind, hpk, hjk, hpk.trans hjk.symm]
      · have hpj : ¬ p.1 = j := fun hh => hjk (hh ▸ hpk)
        have hkj : ¬ k = j := fun hh => hjk hh.symm
        simp [assocModify, assocFind, hpk, hjk, hpj, hkj]
    · by_cases hpj : p.1 = j
      · have hjk : ¬ j = k := fun hh => hpk (hpj ▸ hh)
        simp [assocModify, assocFind, hpk, hpj, hjk]
      · simp [assocModify, assocFind, hpk, hpj, ih]

theorem mem_assocModify {α : Type} {k : String} {f : α → α} {m : List (String × α)}
    {p : String × α} (hp : p ∈ assocModify k f m) :
    ∃ q ∈ m, p.1 = q.1 ∧ (p.2 = q.2 ∨ p.2 = f q.2) := by
  induction m with
  | nil => simp [assocModify] at hp
  | cons q0 rest ih =>
    by_cases h : q0.1 = k
    · simp only [assocModify, if_pos h] at hp
      rcases List.mem_cons.mp hp with h1 | h1
      · exact ⟨q0, List.mem_cons_self q0 rest, by rw [h1], Or.inr (by rw [h1])⟩
      · exact ⟨p, List.mem_cons_of_mem _ h1, rfl, Or.inl rfl⟩
    · simp only [assocModify, if_neg h] at hp
      rcases List.mem_cons.mp hp with h1 | h1
      · exact ⟨q0, List.mem_cons_self q0 rest, by rw [h1], Or.inl (by rw [h1])⟩
      · obtain ⟨q, hq, h2, h3⟩ := ih h1
        exact ⟨q, List.mem_cons_of_mem _ hq, h2, h3⟩

theorem sessionsSum_cons (q : String × ConnAcc) (l : List (String × ConnAcc)) :
    sessionsSum (q :: l) = q.2.sessions + sessionsSum l := by
  simp [sessionsSum]

theorem sessionsSum_append (l1 l2 : List (String × ConnAcc)) :
    sessionsSum (l1 ++ l2) = sessionsSum l1 + sessionsSum l2 := by
  simp [sessionsSum]

theorem sessionsSum_assocModify {m : List (String × ConnAcc)} {k : String} {g : ConnAcc}
    (c : Conn) (h : assocFind m k = some g) :
    sessionsSum (assocModify k (fun x => updateAcc x c) m) = sessionsSum m + 1 := by
  induction m with
  | nil => cases h
  | cons q rest ih =>
    by_cases hk : q.1 = k
    · simp only [assocModify, if_pos hk, sessionsSum_cons, updateAcc_sessions]
      omega
    · simp only [assocFind, if_neg hk] at h
      simp only [assocModify, if_neg hk, sessionsSum_cons, ih h]
      omega

theorem fold_counts (latest : Option String) (conns : List Conn) :
    ∀ (m : List (String × ConnAcc)) (total : Nat),
      (conns.foldl (stepConn latest) (m, total)).2 = total + conns.length ∧
      sessionsSum (conns.foldl (stepConn latest) (m, total)).1 = sessionsSum m + conns.length := by
  induction conns with
  | nil => intro m total; simp
  | cons c rest ih =>
    intro m total
    rw [List.foldl_cons]
    rcases hfind : assocFind m (clientIdOf c) with _ | g
    · have hstep : stepConn latest (m, total) c =
          (m ++ [(clientIdOf c, updateAcc (defaultAcc (clientIdOf c) (versionOf c) latest) c)],
           total + 1) := by
        simp [stepConn, hfind]
      rw [hstep]
      obtain ⟨h1, h2⟩ := ih _ (total + 1)
      refine ⟨by rw [h1]; simp; omega, ?_⟩
      rw [h2, sessionsSum_append, sessionsSum_cons]
      have : (updateAcc (defaultAcc (clientIdOf c) (versionOf c) latest) c).sessions = 1 := rfl
      rw [this]
      simp [sessionsSum]
      omega
    · have hstep : stepConn latest (m, total) c =
          (assocModify (clientIdOf c) (fun g => updateAcc g c) m, total + 1) := by
        simp [stepConn, hfind]
      rw [hstep]
      obtain ⟨h1, h2⟩ := ih _ (total + 1)
      refine ⟨by rw [h1]; simp; omega, ?_⟩
      rw [h2, sessionsSum_assocModify c hfind]
      simp
      omega

theorem fold_mem (latest : Option String) (conns : List Conn) :
    ∀ (m : List (String × ConnAcc)) (total : Nat) (p : String × ConnAcc),
      p ∈ (conns.foldl (stepConn latest) (m, total)).1 →
      (∃ q ∈ m, p.1 = q.1 ∧ p.2.version = q.2.version ∧ p.2.client_id = q.2.client_id ∧
        p.2.latest_version = q.2.latest_version) ∨
      (assocFind m p.1 = none ∧
        ∃ x, conns.find? (fun y => clientIdOf y == p.1) = some x ∧
          p.2.version = versionOf x ∧ p.2.client_id = p.1 ∧ p.2.latest_version = latest) := by
  induction conns with
  | nil =>
    intro m total p hp
    exact Or.inl ⟨p, hp, rfl, rfl, rfl, rfl⟩
  | cons c rest ih =>
    intro m total p hp
    rw [List.foldl_cons] at hp
    rcases hfind : assocFind m (clientIdOf c) with _ | g0
    · have hstep : stepConn latest (m, total) c =
          (m ++ [(clientIdOf c, updateAcc (defaultAcc (clientIdOf c) (versionOf c) latest) c)],
           total + 1) := by
        simp [stepConn, hfind]
      rw [hstep] at hp
      rcases ih _ _ _ hp with ⟨q, hq, h1, h2, h3, h4⟩ | ⟨hnone, x, hx, h2, h3, h4⟩
      · rcases List.mem_append.mp hq with hq' | hq'
        · exact Or.inl ⟨q, hq', h1, h2, h3, h4⟩
        · have hq2 : q = (clientIdOf c,
              updateAcc (defaultAcc (clientIdOf c) (versionOf c) latest) c) := by
            simpa using hq'
          subst hq2
          have hp1 : p.1 = clientIdOf c := h1
          refine Or.inr ⟨hp1 ▸ hfind, c, ?_, ?_, ?_, ?_⟩
          · exact List.find?_cons_of_pos _ (beq_iff_eq.mpr hp1.symm)
          · exact h2
          · rw [h3, hp1]; rfl
          · exact h4
      · obtain ⟨hmn, hne⟩ := assocFind_append_single_none hnone
        refine Or.inr ⟨hmn, x, ?_, h2, h3, h4⟩
        rw [List.find?_cons_of_neg _ (by simpa using fun hh => hne hh.symm)]
        exact hx
    · have hstep : stepConn latest (m, total) c =
          (assocModify (clientIdOf c) (fun g => updateAcc g c) m, total + 1) := by
        simp [stepConn, hfind]
      rw [hstep] at hp
      rcases ih _ _ _ hp with ⟨q, hq, h1, h2, h3, h4⟩ | ⟨hnone, x, hx, h2, h3, h4⟩
      · obtain ⟨q0, hq0, he, hor⟩ := mem_assocModify hq
        rcases hor with he2 | he2
        · exact Or.inl ⟨q0, hq0, h1.trans he, by rw [h2, he2], by rw [h3, he2], by rw [h4, he2]⟩
        · exact Or.inl ⟨q0, hq0, h1.trans he,
            by rw [h2, he2, updateAcc_version],
            by rw [h3, he2, updateAcc_client_id],
            by rw [h4, he2, updateAcc_latest_version]⟩
      · rw [assocFind_assocModify] at hnone
        by_cases hpk : p.1 = clientIdOf c
        · rw [if_pos hpk, hpk, hfind] at hnone
          cases hnone
        · rw [if_neg hpk] at hnone
          refine Or.inr ⟨hnone, x, ?_, h2, h3, h4⟩
          rw [List.find?_cons_of_neg _ (by simpa using fun hh => hpk hh.symm)]
          exact hx

/-! ### The string order and sorting lemmas -/

theorem lexLe_total : ∀ as bs : List Char, lexLe as bs = true ∨ lexLe bs as = true
  | [], _ => Or.inl rfl
  | _ :: _, [] => Or.inr rfl
  | a :: as, b :: bs => by
    by_cases h1 : a < b
    · exact Or.inl (by simp [lexLe, h1])
    · by_cases h2 : b < a
      · exact Or.inr (by simp [lexLe, h2])
      · rcases lexLe_total as bs with h | h
        · exact Or.inl (by simp [lexLe, h1, h2, h])
        · exact Or.inr (by simp [lexLe, h1, h2, h])

theorem lexLe_trans : ∀ as bs cs : List Char,
    lexLe as bs = true → lexLe bs cs = true → lexLe as cs = true
  | [], _, _ => fun _ _ => rfl
  | _ :: _, [], _ => fun hab _ => by cases hab
  | _ :: _, _ :: _, [] => fun _ hbc => by cases hbc
  | a :: as, b :: bs, c :: cs => by
    intro hab hbc
    simp only [lexLe] at hab hbc ⊢
    by_cases h1 : a < b
    · by_cases h2 : b < c
      · rw [if_pos (lt_trans h1 h2)]
      · by_cases h3 : c < b
        · rw [if_neg h2, if_pos h3] at hbc; cases hbc
        · have hcb : b = c := le_antisymm (not_lt.mp h3) (not_lt.mp h2)
          rw [if_pos (hcb ▸ h1)]
    · by_cases h2 : b < a
      · rw [if_neg h1, if_pos h2] at hab; cases hab
      · have hba : a = b := le_antisymm (not_lt.mp h2) (not_lt.mp h1)
        rw [if_neg h1, if_neg h2] at hab
        subst hba
        by_cases h3 : a < c
        · rw [if_pos h3]
        · by_cases h4 : c < a
          · rw [if_neg h3, if_pos h4] at hbc; cases hbc
          · rw [if_neg h3, if_neg h4] at hbc ⊢
            exact lexLe_trans as bs cs hab hbc

theorem strLe_total (a b : String) : strLe a b = true ∨ strLe b a = true :=
  lexLe_total a.data b.data

theorem strLe_trans {a b c : String} (hab : strLe a b = true) (hbc : strLe b c = true) :
    strLe a c = true :=
  lexLe_trans a.data b.data c.data hab hbc

theorem lexLe_iff_not_lt : ∀ as bs : List Char, lexLe as bs = true ↔ ¬ List.lt bs as
  | [], [] => by
    simp only [lexLe]
    constructor
    · intro _ h
      cases h
    · intro _
      trivial
  | [], b :: bs => by
    simp only [lexLe]
    constructor
    · intro _ h
      cases h
    · intro _
      trivial
  | a :: as, [] => by
    simp only [lexLe]
    constructor
    · intro h
      cases h
    · intro hn
      exact absurd (List.lt.nil a as) hn
  | a :: as, b :: bs => by
    by_cases h1 : a < b
    · simp only [lexLe, if_pos h1]
      constructor
      · intro _ h
        cases h with
        | head _ _ hba => exact absurd hba (lt_asymm h1)
        | tail _ hnab _ => exact absurd h1 hnab
      · intro _
        trivial
    · by_cases h2 : b < a
      · simp only [lexLe, if_neg h1, if_pos h2]
        constructor
        · intro h
          cases h
        · intro hn
          exact absurd (List.lt.head bs as h2) hn
      · simp only [lexLe, if_neg h1, if_neg h2, lexLe_iff_not_lt as bs]
        constructor
        · intro hn h
          cases h with
          | head _ _ hba => exact absurd hba h2
          | tail _ _ htl => exact hn htl
        · intro hn htl
          exact hn (List.lt.tail h2 h1 htl)

theorem strLe_iff_le (a b : String) : strLe a b = true ↔ a ≤ b := by
  rw [String.le_iff_toList_le, ← not_lt]
  have h : (b.toList < a.toList) ↔ List.lt b.data a.data :=
    Iff.symm (List.lt_iff_lex_lt b.data a.data)
  rw [h]
  exact lexLe_iff_not_lt a.data b.data

theorem insertSorted_perm (v : String) :
    ∀ l : List String, List.Perm (insertSorted v l) (v :: l)
  | [] => List.Perm.refl _
  | x :: xs => by
    by_cases h : strLe v x
    · simp only [insertSorted, if_pos h]
      exact List.Perm.refl _
    · simp only [insertSorted, if_neg h]
      exact ((insertSorted_perm v xs).cons x).trans (List.Perm.swap v x xs)

theorem pySorted_perm : ∀ l : List String, List.Perm (pySorted l) l
  | [] => List.Perm.refl _
  | x :: xs => by
    simp only [pySorted]
    exact (insertSorted_perm x (pySorted xs)).trans ((pySorted_perm xs).cons x)

theorem insertSorted_sorted (v : String) :
    ∀ l : List String, l.Sorted (fun a b => strLe a b = true) →
      (insertSorted v l).Sorted (fun a b => strLe a b = true)
  | [], _ => List.sorted_singleton v
  | x :: xs, h => by
    rcases List.sorted_cons.mp h with ⟨hx, hxs⟩
    by_cases hvx : strLe v x
    · simp only [insertSorted, if_pos hvx]
      refine List.sorted_cons.mpr ⟨?_, h⟩
      intro b hb
      rcases List.mem_cons.mp hb with hb | hb
      · exact hb ▸ hvx
      · exact strLe_trans hvx (hx b hb)
    · simp only [insertSorted, if_neg hvx]
      refine List.sorted_cons.mpr ⟨?_, insertSorted_sorted v xs hxs⟩
      intro b hb
      have hb2 : b ∈ v :: xs := (insertSorted_perm v xs).mem_iff.mp hb
      rcases List.mem_cons.mp hb2 with hb2 | hb2
      · rw [hb2]
        rcases strLe_total v x with hh | hh
        · exact absurd hh hvx
        · exact hh
      · exact hx b hb2

theorem pySorted_sorted : ∀ l : List String,
    (pySorted l).Sorted (fun a b => strLe a b = true)
  | [] => List.sorted_nil
  | x :: xs => by
    simp only [pySorted]
    exact insertSorted_sorted x (pySorted xs) (pySorted_sorted xs)

theorem pySorted_nodup {l : List String} (h : l.Nodup) : (pySorted l).Nodup :=
  (pySorted_perm l).nodup_iff.mpr h

theorem insertNew_nodup {s : List String} (v : String) (h : s.Nodup) :
    (insertNew s v).Nodup := by
  rw [insertNew]
  by_cases hv : v ∈ s
  · rw [if_pos hv]; exact h
  · rw [if_neg hv]
    simp [List.nodup_append, h, hv]

theorem addTruthy_nodup {s : List String} (o : Option String) (h : s.Nodup) :
    (addTruthy s o).Nodup := by
  rcases o with _ | v
  · exact h
  · rw [addTruthy]
    by_cases hv : v = ""
    · rw [if_pos hv]; exact h
    · rw [if_neg hv]; exact insertNew_nodup v h

/-- Every property of grouped records preserved by `updateAcc` and enjoyed
by fresh default records is an invariant of the `_build_connectors` fold. -/
theorem fold_pointwise (latest : Option String) (P : ConnAcc → Prop)
    (hupd : ∀ g c, P g → P (updateAcc g c))
    (hnew : ∀ c, P (defaultAcc (clientIdOf c) (versionOf c) latest)) :
    ∀ (conns : List Conn) (m : List (String × ConnAcc)) (total : Nat),
      (∀ p ∈ m, P p.2) →
      ∀ p ∈ (conns.foldl (stepConn latest) (m, total)).1, P p.2 := by
  intro conns
  induction conns with
  | nil => intro m total hm p hp; exact hm p hp
  | cons c rest ih =>
    intro m total hm p hp
    rw [List.foldl_cons] at hp
    rcases hfind : assocFind m (clientIdOf c) with _ | g0
    · have hstep : stepConn latest (m, total) c =
          (m ++ [(clientIdOf c, updateAcc (defaultAcc (clientIdOf c) (versionOf c) latest) c)],
           total + 1) := by
        simp [stepConn, hfind]
      rw [hstep] at hp
      refine ih _ _ ?_ p hp
      intro q hq
      rcases List.mem_append.mp hq with hq | hq
      · exact hm q hq
      · have hq2 : q = (clientIdOf c,
            updateAcc (defaultAcc (clientIdOf c) (versionOf c) latest) c) := by
          simpa using hq
        rw [hq2]
        exact hupd _ c (hnew c)
    · have hstep : stepConn latest (m, total) c =
          (assocModify (clientIdOf c) (fun g => updateAcc g c) m, total + 1) := by
        simp [stepConn, hfind]
      rw [hstep] at hp
      refine ih _ _ ?_ p hp
      intro q hq
      obtain ⟨q0, hq0, _, hor⟩ := mem_assocModify hq
      rcases hor with he | he
      · exact he ▸ hm q0 hq0
      · rw [he]
        exact hupd _ c (hm q0 hq0)

theorem fold_edges_nodup (latest : Option String) (conns : List Conn)
    (p : String × ConnAcc) (hp : p ∈ (conns.foldl (stepConn latest) ([], 0)).1) :
    p.2.edges.Nodup ∧ p.2.origin_ips.Nodup := by
  refine fold_pointwise latest (fun g => g.edges.Nodup ∧ g.origin_ips.Nodup)
    ?_ ?_ conns [] 0 (by intro q hq; cases hq) p hp
  · intro g c hg
    exact ⟨addTruthy_nodup _ hg.1, addTruthy_nodup _ hg.2⟩
  · intro c
    exact ⟨List.nodup_nil, List.nodup_nil⟩

/-! ### Claim theorems -/

/-- C1: for every raw connection list and every latest-version value,
`_build_connectors` returns `session_count` equal to the length of the
input list, and the sum of the `sessions` fields over all returned
connectors equals `session_count`. -/
theorem claim_C1 (conns : List Conn) (latest : Option String) :
    (build_connectors conns latest).2.2 = conns.length ∧
    ((build_connectors conns latest).1.map (fun c => c.sessions)).sum =
      (build_connectors conns latest).2.2 := by
  obtain ⟨h1, h2⟩ := fold_counts latest conns [] 0
  have hmap : ((conns.foldl (stepConn latest) ([], 0)).1.map (fun p => finalize p.2)).map
        (fun c => c.sessions) =
      (conns.foldl (stepConn latest) ([], 0)).1.map (fun p => p.2.sessions) := by
    rw [List.map_map]
    exact List.map_congr_left (fun p _ => finalize_sessions p.2)
  constructor
  · simpa [build_connectors] using h1
  · simp only [build_connectors]
    rw [hmap]
    have hs : ((conns.foldl (stepConn latest) ([], 0)).1.map (fun p => p.2.sessions)).sum =
        sessionsSum (conns.foldl (stepConn latest) ([], 0)).1 := rfl
    rw [hs, h2, h1]
    simp [sessionsSum]

/-- C2: for every connector produced by `_build_connectors`, `version_diff`
is non-null iff `update_available` is `true`, which holds iff the
connector's `version` and `latest_version` are both truthy (present and
non-empty) and unequal; when either is empty, `is_latest`,
`update_available` and `version_diff` are all null. -/
theorem claim_C2 (conns : List Conn) (latest : Option String) (c : Connector)
    (h : c ∈ (build_connectors conns latest).1) :
    ((c.version_diff ≠ none) ↔ c.update_available = some true) ∧
    (c.update_available = some true ↔
      (truthyS c.version = true ∧ truthyS c.latest_version = true ∧
        c.version ≠ c.latest_version)) ∧
    ((truthyS c.version = false ∨ truthyS c.latest_version = false) →
      c.is_latest = none ∧ c.update_available = none ∧ c.version_diff = none) := by
  simp only [build_connectors, List.mem_map] at h
  obtain ⟨p, hp, hc⟩ := h
  subst hc
  rcases hv : p.2.version with _ | v <;> rcases hl : p.2.latest_version with _ | l
  · simp [finalize, hv, hl, finalizeBase, truthyS]
  · simp [finalize, hv, hl, finalizeBase, truthyS]
  · simp [finalize, hv, hl, finalizeBase, truthyS]
  · by_cases hve : v = "" ∨ l = ""
    · rcases hve with hve | hve <;> subst hve <;>
        simp [finalize, hv, hl, finalizeBase, truthyS]
    · push_neg at hve
      by_cases hvl : v = l
      · subst hvl
        simp [finalize, hv, hl, finalizeBase, truthyS, hve.1, hve.2]
      · simp [finalize, hv, hl, finalizeBase, truthyS, hve.1, hve.2, hvl]

/-- Witness for C2 at a concrete input: two raw connections grouped under
client `"A"` with version `"2024.1.0"` against latest `"2024.2.0"`. -/
theorem claim_C2_witness :
    ((wconn2.version_diff ≠ none) ↔ wconn2.update_available = some true) ∧
    (wconn2.update_available = some true ↔
      (truthyS wconn2.version = true ∧ truthyS wconn2.latest_version = true ∧
        wconn2.version ≠ wconn2.latest_version)) ∧
    ((truthyS wconn2.version = false ∨ truthyS wconn2.latest_version = false) →
      wconn2.is_latest = none ∧ wconn2.update_available = none ∧
        wconn2.version_diff = none) :=
  claim_C2 conns2 (some "2024.2.0") wconn2 (by decide)

/-- C6 counterexample: for the group `"A"` whose first connection carries no
version and whose second carries `"2024.1.0"`, the code reports `version =
none`, while the first non-empty version observed in input order is
`"2024.1.0"`. -/
theorem claim_C6_counterexample :
    (build_connectors conns6 none).1.map (fun c => (c.client_id, c.version)) =
      [("A", (none : Option String))] ∧
    firstNonEmptyVersion conns6 "A" = some "2024.1.0" ∧
    (none : Option String) ≠ some "2024.1.0" := by
  refine ⟨by decide, by decide, by decide⟩

/-- C6 amended: for every connector produced by `_build_connectors`, the
`version` field equals the version resolved (via the alias chain) from the
group's first connection in input order — even when that resolved version
is empty; later non-empty versions within the same group are ignored. -/
theorem claim_C6 (conns : List Conn) (latest : Option String) (c : Connector)
    (h : c ∈ (build_connectors conns latest).1) :
    ∃ x, conns.find? (fun y => clientIdOf y == c.client_id) = some x ∧
      c.version = versionOf x := by
  simp only [build_connectors, List.mem_map] at h
  obtain ⟨p, hp, hc⟩ := h
  subst hc
  rcases fold_mem latest conns [] 0 p hp with ⟨q, hq, _⟩ | ⟨_, x, hx, h2, h3, _⟩
  · exact absurd hq (List.not_mem_nil q)
  · refine ⟨x, ?_, ?_⟩
    · rw [finalize_client_id, h3]; exact hx
    · rw [finalize_version]; exact h2

/-- Witness for the amended C6 at a concrete input. -/
theorem claim_C6_witness :
    ∃ x, conns6.find? (fun y => clientIdOf y == wconn6.client_id) = some x ∧
      wconn6.version = versionOf x :=
  claim_C6 conns6 none wconn6 (by decide)

/-- C8: for every connector produced by `_build_connectors`, the `edges`
and `origin_ips` lists are duplicate-free and sorted ascending. -/
theorem claim_C8 (conns : List Conn) (latest : Option String) (c : Connector)
    (h : c ∈ (build_connectors conns latest).1) :
    c.edges.Nodup ∧ c.edges.Sorted (fun a b => a ≤ b) ∧
    c.origin_ips.Nodup ∧ c.origin_ips.Sorted (fun a b => a ≤ b) := by
  simp only [build_connectors, List.mem_map] at h
  obtain ⟨p, hp, hc⟩ := h
  subst hc
  obtain ⟨hne, hno⟩ := fold_edges_nodup latest conns p hp
  rw [finalize_edges, finalize_origin_ips]
  exact ⟨pySorted_nodup hne,
    (pySorted_sorted p.2.edges).imp (fun hab => (strLe_iff_le _ _).mp hab),
    pySorted_nodup hno,
    (pySorted_sorted p.2.origin_ips).imp (fun hab => (strLe_iff_le _ _).mp hab)⟩

/-- Witness for C8 at a concrete input. -/
theorem claim_C8_witness :
    wconn2.edges.Nodup ∧ wconn2.edges.Sorted (fun a b => a ≤ b) ∧
    wconn2.origin_ips.Nodup ∧ wconn2.origin_ips.Sorted (fun a b => a ≤ b) :=
  claim_C8 conns2 (some "2024.2.0") wconn2 (by decide)

theorem dget_connector_count (latest : Option String) (co : FetchOutcome ConnResp)
    (tid : String) (t : RawTunnel) :
    dget (buildTunnelEntry latest co tid t) "connector_count" =
      some (TVal.n (build_connectors (connRawOf co) latest).2.1) := rfl

theorem dget_session_count (latest : Option String) (co : FetchOutcome ConnResp)
    (tid : String) (t : RawTunnel) :
    dget (buildTunnelEntry latest co tid t) "session_count" =
      some (TVal.n (build_connectors (connRawOf co) latest).2.2) := rfl

theorem dget_connectors (latest : Option String) (co : FetchOutcome ConnResp)
    (tid : String) (t : RawTunnel) :
    dget (buildTunnelEntry latest co tid t) "connectors" =
      some (TVal.cs (build_connectors (connRawOf co) latest).1) := rfl

theorem dget_latest (latest : Option String) (co : FetchOutcome ConnResp)
    (tid : String) (t : RawTunnel) :
    dget (buildTunnelEntry latest co tid t) "latest_cloudflared_version" =
      some (TVal.os latest) := rfl

/-- Every connector produced with a given latest-version value carries that
value in its `latest_version` field. -/
theorem build_connectors_latest (conns : List Conn) (latest : Option String)
    (c : Connector) (h : c ∈ (build_connectors conns latest).1) :
    c.latest_version = latest := by
  simp only [build_connectors, List.mem_map] at h
  obtain ⟨p, hp, hc⟩ := h
  subst hc
  rcases fold_mem latest conns [] 0 p hp with ⟨q, hq, _⟩ | ⟨_, _, _, _, _, h4⟩
  · exact absurd hq (List.not_mem_nil q)
  · rw [finalize_latest_version]
    exact h4

/-- C3 counterexample: with the stored latest version `"2025.1.0"` and a
cycle whose GitHub fetch fails, the stored value is overwritten with
`none` and the cycle's tunnel entry carries a null latest version — the
stale value is not retained. -/
theorem claim_C3_counterexample :
    (async_update_data (some "2025.1.0") env3).2 = none ∧
    (async_update_data (some "2025.1.0") env3).2 ≠ some "2025.1.0" ∧
    (async_update_data (some "2025.1.0") env3).1 =
      Except.ok [[("id", TVal.s "tun1"), ("name", TVal.s "tun1"),
        ("status", TVal.os none), ("created_at", TVal.os none),
        ("connector_count", TVal.n 1), ("session_count", TVal.n 1),
        ("connectors", TVal.cs [wconn3]),
        ("latest_cloudflared_version", TVal.os none)]] := by
  refine ⟨rfl, by decide, rfl⟩

/-- C3 amended: when the latest-version fetch fails (or yields empty) in a
cycle whose tunnel-list fetch succeeds, the stored latest version is
overwritten with `none`, and `none` — not the stale value — is used for
that cycle's tunnel entries and connectors. -/
theorem claim_C3 (prev : Option String) (env : Env) (reason text : String)
    (ts : List RawTunnel)
    (hok : env.tunnelsFetch = FetchOutcome.httpResp 200 reason text (TunnelsPayload.ok ts))
    (hfail : fetch_latest_version env.githubFetch = none) :
    (async_update_data prev env).2 = none ∧
    ∀ l, (async_update_data prev env).1 = Except.ok l →
      ∀ d ∈ l, dget d "latest_cloudflared_version" = some (TVal.os none) ∧
        ∀ cs, dget d "connectors" = some (TVal.cs cs) →
          ∀ c ∈ cs, c.latest_version = none := by
  have hjson : fetch_json env.tunnelsFetch = Except.ok (TunnelsPayload.ok ts) := by
    rw [hok]; rfl
  constructor
  · simp [async_update_data, hjson, hfail]
  · intro l hl d hd
    simp only [async_update_data, hjson, hfail] at hl
    rw [Except.ok.injEq] at hl
    subst hl
    obtain ⟨t, ht, htd⟩ := List.mem_filterMap.mp hd
    rcases htid : tunnelIdOf t with _ | tid
    · rw [tunnelEntry, htid] at htd; cases htd
    · rw [tunnelEntry, htid, Option.some.injEq] at htd
      subst htd
      refine ⟨dget_latest none _ tid t, ?_⟩
      intro cs hcs
      rw [dget_connectors none _ tid t, Option.some.injEq, TVal.cs.injEq] at hcs
      subst hcs
      intro c hc
      exact build_connectors_latest _ none c hc

/-- Witness for the amended C3: the concrete environment `env3`. -/
theorem claim_C3_witness :
    (async_update_data (some "2025.1.0") env3).2 = none ∧
    (∀ l, (async_update_data (some "2025.1.0") env3).1 = Except.ok l →
      ∀ d ∈ l, dget d "latest_cloudflared_version" = some (TVal.os none) ∧
        ∀ cs, dget d "connectors" = some (TVal.cs cs) →
          ∀ c ∈ cs, c.latest_version = none) :=
  claim_C3 (some "2025.1.0") env3 "OK" "" [t3] rfl rfl

/-- C4: when the tunnel-list fetch returns HTTP 401, the whole cycle fails
with `Unauthorized`, the stored latest version is unchanged, the
previously published snapshot is retained, and the result is independent
of the per-tunnel connection fetches (none are consulted). -/
theorem claim_C4 (prev : Option String) (prevSnap : Option (List TunnelDict)) (env : Env)
    (reason text : String) (body : TunnelsPayload)
    (h : env.tunnelsFetch = FetchOutcome.httpResp 401 reason text body) :
    (async_update_data prev env).1 = Except.error UpdateFailedE.unauthorized ∧
    (async_update_data prev env).2 = prev ∧
    publish prevSnap (async_update_data prev env).1 = prevSnap ∧
    ∀ cf : String → FetchOutcome ConnResp,
      async_update_data prev { env with connFetch := cf } = async_update_data prev env := by
  have hjson : fetch_json env.tunnelsFetch = Except.error UpdateFailedE.unauthorized := by
    rw [h]; rfl
  refine ⟨?_, ?_, ?_, ?_⟩
  · simp [async_update_data, hjson]
  · simp [async_update_data, hjson]
  · simp [async_update_data, hjson, publish]
  · intro cf
    simp [async_update_data, hjson]

/-- Witness for C4: the concrete environment `env4` whose tunnel-list fetch
returns 401. -/
theorem claim_C4_witness :
    (async_update_data none env4).1 = Except.error UpdateFailedE.unauthorized ∧
    (async_update_data none env4).2 = none ∧
    publish (some [[("id", TVal.s "old")]]) (async_update_data none env4).1 =
      some [[("id", TVal.s "old")]] ∧
    (∀ cf : String → FetchOutcome ConnResp,
      async_update_data none { env4 with connFetch := cf } = async_update_data none env4) :=
  claim_C4 none (some [[("id", TVal.s "old")]]) env4 "Unauthorized" ""
    (TunnelsPayload.ok []) rfl

/-- C5: when the tunnel-list fetch succeeds, the cycle publishes one entry
per tunnel with a truthy id; a tunnel whose connections fetch fails gets
the empty connection list, hence `connector_count = 0`, `session_count = 0`
and no connectors; and each tunnel's entry depends only on its own
connections fetch, so sibling tunnels are unaffected. -/
theorem claim_C5 (prev : Option String) (env : Env) (reason text : String)
    (ts : List RawTunnel)
    (hok : env.tunnelsFetch = FetchOutcome.httpResp 200 reason text (TunnelsPayload.ok ts)) :
    (async_update_data prev env).1 = Except.ok
      (ts.filterMap (tunnelEntry (fetch_latest_version env.githubFetch) env.connFetch)) ∧
    (∀ t ∈ ts, ∀ tid, tunnelIdOf t = some tid →
      buildTunnelEntry (fetch_latest_version env.githubFetch) (env.connFetch tid) tid t ∈
        ts.filterMap (tunnelEntry (fetch_latest_version env.githubFetch) env.connFetch)) ∧
    (∀ (latest : Option String) (co : FetchOutcome ConnResp) (tid : String) (t : RawTunnel)
      (e : UpdateFailedE), fetch_json co = Except.error e →
      dget (buildTunnelEntry latest co tid t) "connector_count" = some (TVal.n 0) ∧
      dget (buildTunnelEntry latest co tid t) "session_count" = some (TVal.n 0) ∧
      dget (buildTunnelEntry latest co tid t) "connectors" = some (TVal.cs [])) ∧
    (∀ env2 : Env, ∀ t ∈ ts, ∀ tid, tunnelIdOf t = some tid →
      env2.connFetch tid = env.connFetch tid →
      tunnelEntry (fetch_latest_version env.githubFetch) env2.connFetch t =
        tunnelEntry (fetch_latest_version env.githubFetch) env.connFetch t) := by
  have hjson : fetch_json env.tunnelsFetch = Except.ok (TunnelsPayload.ok ts) := by
    rw [hok]; rfl
  refine ⟨?_, ?_, ?_, ?_⟩
  · simp [async_update_data, hjson]
  · intro t ht tid htid
    exact List.mem_filterMap.mpr ⟨t, ht, by rw [tunnelEntry, htid]⟩
  · intro latest co tid t e he
    have hraw : connRawOf co = [] := by
      rw [connRawOf, he]
    refine ⟨?_, ?_, ?_⟩
    · rw [dget_connector_count, hraw]; rfl
    · rw [dget_session_count, hraw]; rfl
    · rw [dget_connectors, hraw]; rfl
  · intro env2 t ht tid htid hcf
    simp only [tunnelEntry, htid, hcf]

/-- Witness for C5: the concrete environment `env5`, two tunnels with the
second one's connections fetch failing with HTTP 500. -/
theorem claim_C5_witness :
    env5.tunnelsFetch = FetchOutcome.httpResp 200 "OK" "" (TunnelsPayload.ok tsW) ∧
    ((async_update_data none env5).1 = Except.ok
      (tsW.filterMap (tunnelEntry (fetch_latest_version env5.githubFetch) env5.connFetch)) ∧
    (∀ t ∈ tsW, ∀ tid, tunnelIdOf t = some tid →
      buildTunnelEntry (fetch_latest_version env5.githubFetch) (env5.connFetch tid) tid t ∈
        tsW.filterMap (tunnelEntry (fetch_latest_version env5.githubFetch) env5.connFetch)) ∧
    (∀ (latest : Option String) (co : FetchOutcome ConnResp) (tid : String) (t : RawTunnel)
      (e : UpdateFailedE), fetch_json co = Except.error e →
      dget (buildTunnelEntry latest co tid t) "connector_count" = some (TVal.n 0) ∧
      dget (buildTunnelEntry latest co tid t) "session_count" = some (TVal.n 0) ∧
      dget (buildTunnelEntry latest co tid t) "connectors" = some (TVal.cs [])) ∧
    (∀ env2 : Env, ∀ t ∈ tsW, ∀ tid, tunnelIdOf t = some tid →
      env2.connFetch tid = env5.connFetch tid →
      tunnelEntry (fetch_latest_version env5.githubFetch) env2.connFetch t =
        tunnelEntry (fetch_latest_version env5.githubFetch) env5.connFetch t)) :=
  ⟨rfl, claim_C5 none env5 "OK" "" tsW rfl⟩

/-- C7: the code slip.  `native_value` returns the declared status verbatim:
a recognized status yields that enum value and a missing status yields
null, but an unrecognized status such as `"weird"` is passed through
unchanged — outside the sensor's own declared `_attr_options` enum — where
the claim (and the sensor's `ENUM` device class contract) requires an
absent/unknown result. -/
theorem claim_C7 :
    native_value (buildTunnelEntry none FetchOutcome.clientErr "tun1"
      { id := some "tun1", status := some "weird" }) = some "weird" ∧
    "weird" ∉ attrOptions ∧
    native_value (buildTunnelEntry none FetchOutcome.clientErr "tun1"
      { id := some "tun1", status := some "healthy" }) = some "healthy" ∧
    "healthy" ∈ attrOptions ∧
    native_value (buildTunnelEntry none FetchOutcome.clientErr "tun1"
      { id := some "tun1" }) = none := by
  refine ⟨rfl, by decide, rfl, by decide, rfl⟩

theorem head_dropWhile_false {p : Char → Bool} :
    ∀ (l : List Char) (c : Char), (l.dropWhile p).head? = some c → p c = false
  | [], c => by
    intro h
    cases h
  | a :: as, c => by
    intro h
    by_cases ha : p a
    · rw [List.dropWhile_cons, if_pos ha] at h
      exact head_dropWhile_false as c h
    · rw [List.dropWhile_cons, if_neg ha, List.head?_cons, Option.some.injEq] at h
      rw [← h]
      exact Bool.eq_false_iff.mpr ha

/-- C9 counterexample: on a release tagged `"vv2024.1.0"` the code strips
every leading `v` (Python `lstrip("v")`) and returns `"2024.1.0"`, while
stripping a single leading version-prefix character, as the claim states,
would leave `"v2024.1.0"`. -/
theorem claim_C9_counterexample :
    fetch_latest_version
      (GhOutcome.httpResp 200 (some { tag_name := some "vv2024.1.0" })) =
      some "2024.1.0" ∧
    stripOneLeadingV "vv2024.1.0" = "v2024.1.0" ∧
    (some "2024.1.0" : Option String) ≠ some (stripOneLeadingV "vv2024.1.0") := by
  refine ⟨by decide, by decide, by decide⟩

/-- C9 amended: `_fetch_latest_version` never raises (it is a total
function into `Option`); every failure — raised exception, non-200 status,
malformed payload — yields `none`; on a 200 response it takes
`tag_name or name` and strips the entire leading run of `v` characters
(Python `lstrip("v")`), leaving the rest of the tag unchanged: the
stripped prefix is all `v`s, the remainder follows it in the original tag,
and the result no longer starts with `v`. -/
theorem claim_C9 :
    fetch_latest_version GhOutcome.exn = none ∧
    (∀ (status : Nat) (body : Option GhRelease), status ≠ 200 →
      fetch_latest_version (GhOutcome.httpResp status body) = none) ∧
    (∀ status : Nat, fetch_latest_version (GhOutcome.httpResp status none) = none) ∧
    (∀ body : GhRelease, fetch_latest_version (GhOutcome.httpResp 200 (some body)) =
      (pyOr body.tag_name body.name).map
        (fun v => String.mk (v.data.dropWhile (fun ch => ch = 'v')))) ∧
    (∀ v : String,
      v.data.takeWhile (fun ch => ch = 'v') ++ v.data.dropWhile (fun ch => ch = 'v') =
        v.data ∧
      (∀ ch ∈ v.data.takeWhile (fun ch => ch = 'v'), ch = 'v') ∧
      (∀ ch, (v.data.dropWhile (fun ch => ch = 'v')).head? = some ch → ¬ ch = 'v')) := by
  refine ⟨rfl, ?_, ?_, ?_, ?_⟩
  · intro status body h
    simp [fetch_latest_version, h]
  · intro status
    by_cases h : status = 200 <;> simp [fetch_latest_version, h]
  · intro body
    simp only [fetch_latest_version, if_neg (by decide : ¬ (200 : Nat) ≠ 200)]
    rcases pyOr body.tag_name body.name with _ | v <;> rfl
  · intro v
    refine ⟨List.takeWhile_append_dropWhile _ _, ?_, ?_⟩
    · intro ch hch
      simpa using List.mem_takeWhile_imp hch
    · intro ch hch
      simpa using head_dropWhile_false v.data ch hch

/-- Witness for the amended C9 at concrete inputs: a 404 yields `none` and
a 200 with tag `"v2025.1.0"` yields `"2025.1.0"`. -/
theorem claim_C9_witness :
    fetch_latest_version (GhOutcome.httpResp 404 none) = none ∧
    fetch_latest_version
      (GhOutcome.httpResp 200 (some { tag_name := some "v2025.1.0" })) =
      some "2025.1.0" := by
  refine ⟨claim_C9.2.1 404 none (by decide), ?_⟩
  rw [claim_C9.2.2.2.1 { tag_name := some "v2025.1.0" }]
  decide

/-- C10: for every tunnel record assembled by the coordinator — which
stores its grouped data under `"connectors"` and writes no `"conns"` or
`"connections"` key — the sensor's `extra_state_attributes` finds no raw
sessions and reports `connector_count = 0`, `session_count = 0` and an
empty connector list, regardless of the counts the coordinator computed. -/
theorem claim_C10 (latest : Option String) (co : FetchOutcome ConnResp)
    (tid : String) (t : RawTunnel) :
    dget (buildTunnelEntry latest co tid t) "conns" = none ∧
    dget (buildTunnelEntry latest co tid t) "connections" = none ∧
    dget (buildTunnelEntry latest co tid t) "connectors" =
      some (TVal.cs (build_connectors (connRawOf co) latest).1) ∧
    extra_state_attributes (buildTunnelEntry latest co tid t) =
      { connector_count := 0, connectors := [], session_count := 0,
        latest_cloudflared_version := latest } := by
  refine ⟨rfl, rfl, rfl, rfl⟩

end CFTM
